import Mathlib

/-!
Verification development for src/smartcontract.go (package chaincode): a
Hyperledger Fabric chaincode managing three entity kinds on a key-value
ledger: CTI items (keys CTI_id), user records (keys UserData_identity) and
reviews (keys Review_id), plus decimal sequence counters (keys latestID and
latestID_Review).

Modelling choices, all stated next to the definitions they concern:
- The Fabric stub is an association list from string keys to stored values
  together with injectable point-read and write faults; GetState returns nil
  bytes plus an error on a faulty read, as the Fabric API does.
- Caller identity (GetClientIdentity().GetID()) is modelled as an
  already-resolved identity string passed to every operation.
- JSON marshalling is modelled structurally: a stored value is either a raw
  byte string (used for the counters) or a marshalled record of one of the
  three struct types. Unmarshalling a value of the wrong shape is modelled
  as an error; no reachable key ever holds a value of another shape, so no
  theorem below depends on this corner.
- strconv.Itoa and strconv.Atoi are modelled by goItoa and goAtoi, an
  executable decimal printer and parser proved to round-trip.
- GetStateByRange returns the entries whose key k satisfies
  startKey <= k < endKey (the Fabric contract: start inclusive, end
  exclusive), in lexicographic byte order of the keys; range reads are
  modelled as fault-free.
-/

/-- Little-endian decimal digit values of a natural number, computed with
explicit fuel so that the definition is structurally recursive. -/
def natDigitsAux : Nat → Nat → List Nat
  | 0, _ => []
  | f + 1, n => if n = 0 then [] else (n % 10) :: natDigitsAux f (n / 10)

/-- Little-endian decimal digit values of a natural number; 0 has no digits. -/
def natDigits (n : Nat) : List Nat := natDigitsAux n n

theorem natDigitsAux_fuel_irrel (f g n : Nat) (hf : n ≤ f) (hg : n ≤ g) :
    natDigitsAux f n = natDigitsAux g n := by
  induction f generalizing g n with
  | zero =>
    have hn : n = 0 := Nat.le_zero.mp hf
    cases g with
    | zero => rfl
    | succ g => simp [natDigitsAux, hn]
  | succ f ih =>
    cases g with
    | zero =>
      have hn : n = 0 := Nat.le_zero.mp hg
      simp [natDigitsAux, hn]
    | succ g =>
      by_cases hn : n = 0
      · simp [natDigitsAux, hn]
      · simp only [natDigitsAux, hn, if_false]
        have hd : n / 10 ≤ f := by
          have := Nat.div_lt_self (Nat.pos_of_ne_zero hn) (by norm_num : 1 < 10)
          omega
        have hd' : n / 10 ≤ g := by
          have := Nat.div_lt_self (Nat.pos_of_ne_zero hn) (by norm_num : 1 < 10)
          omega
        rw [ih g (n / 10) hd hd']

theorem natDigits_zero : natDigits 0 = [] := rfl

theorem natDigits_pos (n : Nat) (hn : n ≠ 0) :
    natDigits n = (n % 10) :: natDigits (n / 10) := by
  cases n with
  | zero => exact absurd rfl hn
  | succ m =>
    show natDigitsAux (m + 1) (m + 1) = _
    simp only [natDigitsAux, Nat.succ_ne_zero, if_false]
    congr 1
    exact natDigitsAux_fuel_irrel m ((m + 1) / 10) ((m + 1) / 10)
      (by have := Nat.div_lt_self (Nat.succ_pos m) (by norm_num : 1 < 10); omega)
      (Nat.le_refl _)

theorem natDigits_lt_ten (n : Nat) : ∀ d ∈ natDigits n, d < 10 := by
  induction n using Nat.strong_induction_on with
  | _ n ih =>
    by_cases hn : n = 0
    · simp [hn, natDigits_zero]
    · rw [natDigits_pos n hn]
      intro d hd
      rcases List.mem_cons.mp hd with h | h
      · subst h; exact Nat.mod_lt _ (by norm_num)
      · exact ih (n / 10) (Nat.div_lt_self (Nat.pos_of_ne_zero hn) (by norm_num)) d h

theorem natDigits_ne_nil (n : Nat) (hn : n ≠ 0) : natDigits n ≠ [] := by
  rw [natDigits_pos n hn]; simp

/-- Decode a most-significant-first list of digit values. -/
def decNat (l : List Nat) : Nat := l.foldl (fun a d => a * 10 + d) 0

theorem decNat_append_single (l : List Nat) (d : Nat) :
    decNat (l ++ [d]) = decNat l * 10 + d := by
  simp [decNat, List.foldl_append]

theorem decNat_reverse_digits (n : Nat) : decNat (natDigits n).reverse = n := by
  induction n using Nat.strong_induction_on with
  | _ n ih =>
    by_cases hn : n = 0
    · simp [hn, natDigits_zero, decNat]
    · rw [natDigits_pos n hn]
      simp only [List.reverse_cons]
      rw [decNat_append_single]
      rw [ih (n / 10) (Nat.div_lt_self (Nat.pos_of_ne_zero hn) (by norm_num))]
      omega

/-- Decimal digit character for a digit value. -/
def digitChar (d : Nat) : Char := Char.ofNat (48 + d)

def charToVal (c : Char) : Nat := c.toNat - 48

def isDigitCh (c : Char) : Bool := decide (48 ≤ c.toNat) && decide (c.toNat ≤ 57)

theorem charToVal_digitChar (d : Nat) (h : d < 10) : charToVal (digitChar d) = d := by
  interval_cases d <;> decide

theorem isDigitCh_digitChar (d : Nat) (h : d < 10) : isDigitCh (digitChar d) = true := by
  interval_cases d <;> decide

theorem digitChar_ne_minus (d : Nat) (h : d < 10) : digitChar d ≠ '-' := by
  interval_cases d <;> decide

theorem digitChar_ne_plus (d : Nat) (h : d < 10) : digitChar d ≠ '+' := by
  interval_cases d <;> decide

/-- strconv.Itoa restricted to natural numbers. -/
def natRepr (n : Nat) : String :=
  if n = 0 then "0" else ⟨((natDigits n).map digitChar).reverse⟩

/-- strconv.Itoa: decimal representation of a Go int. -/
def goItoa (i : Int) : String :=
  if i < 0 then "-" ++ natRepr (-i).toNat else natRepr i.toNat

/-- Parse a nonempty most-significant-first run of decimal digit characters. -/
def decDigits? (l : List Char) : Option Nat :=
  if !l.isEmpty && l.all isDigitCh then some (decNat (l.map charToVal)) else none

/-- strconv.Atoi: parse an optionally signed decimal string; none on failure. -/
def goAtoi (s : String) : Option Int :=
  match s.data with
  | [] => none
  | c :: t =>
    if c = '-' then (decDigits? t).map (fun n => -(n : Int))
    else if c = '+' then (decDigits? t).map (fun n => (n : Int))
    else (decDigits? (c :: t)).map (fun n => (n : Int))

theorem map_charToVal_map_digitChar (l : List Nat) (h : ∀ d ∈ l, d < 10) :
    (l.map digitChar).map charToVal = l := by
  induction l with
  | nil => rfl
  | cons d t ih =>
    simp only [List.map_cons, List.cons.injEq]
    exact ⟨charToVal_digitChar d (h d (List.mem_cons_self d t)),
      ih (fun x hx => h x (List.mem_cons_of_mem d hx))⟩

theorem decDigits?_map_digitChar (l : List Nat) (hne : l ≠ []) (h : ∀ d ∈ l, d < 10) :
    decDigits? (l.map digitChar) = some (decNat l) := by
  unfold decDigits?
  have h1 : (l.map digitChar).isEmpty = false := by
    cases l with
    | nil => exact absurd rfl hne
    | cons a t => rfl
  have h2 : (l.map digitChar).all isDigitCh = true := by
    rw [List.all_eq_true]
    intro c hc
    rcases List.mem_map.mp hc with ⟨d, hd, rfl⟩
    exact isDigitCh_digitChar d (h d hd)
  rw [h1, h2]
  simp only [Bool.not_false, Bool.true_and, if_true]
  rw [map_charToVal_map_digitChar l h]

theorem goAtoi_natRepr (n : Nat) : goAtoi (natRepr n) = some (n : Int) := by
  by_cases hn : n = 0
  · subst hn; decide
  · unfold natRepr
    rw [if_neg hn]
    set D : List Nat := (natDigits n).reverse with hD
    have hdata : (⟨((natDigits n).map digitChar).reverse⟩ : String).data
        = D.map digitChar := by
      simp [hD, List.map_reverse]
    have hDne : D ≠ [] := by
      simp [hD]
      exact natDigits_ne_nil n hn
    have hDlt : ∀ d ∈ D, d < 10 := by
      intro d hd
      exact natDigits_lt_ten n d (List.mem_reverse.mp hd)
    have hdec : decNat D = n := by
      rw [hD]; exact decNat_reverse_digits n
    unfold goAtoi
    rw [hdata]
    cases hDc : D with
    | nil => exact absurd hDc hDne
    | cons d t =>
      have hdlt : d < 10 := hDlt d (by rw [hDc]; exact List.mem_cons_self d t)
      simp only [List.map_cons]
      rw [if_neg (digitChar_ne_minus d hdlt), if_neg (digitChar_ne_plus d hdlt)]
      have : decDigits? (digitChar d :: t.map digitChar) = some (decNat (d :: t)) := by
        have := decDigits?_map_digitChar (d :: t) (by simp)
          (by rw [← hDc]; exact hDlt)
        simpa using this
      rw [this, ← hDc, hdec]
      simp

theorem natRepr_injective (a b : Nat) (h : natRepr a = natRepr b) : a = b := by
  have ha := goAtoi_natRepr a
  have hb := goAtoi_natRepr b
  rw [h, hb] at ha
  exact Int.ofNat_inj.mp (Option.some_injective _ ha).symm

theorem goItoa_ofNat (n : Nat) : goItoa (n : Int) = natRepr n := by
  unfold goItoa
  rw [if_neg (by omega : ¬((n : Int) < 0))]
  simp

/-- CTIData, the struct for CTI data entries, fields as in the source. -/
structure CTIData where
  ID : String
  Name : String
  Uploader : String
  Timestamp : Int
  CID : String
  EncryptKey : String
  Points : Int
  Level : Int
deriving DecidableEq, Repr

/-- UserData, the struct for user entries, fields as in the source. -/
structure UserData where
  ID : String
  UserLevel : Int
  UploadCount : Int
  Points : Int
  Subscribed : Int
  Balance : Int
deriving DecidableEq, Repr

/-- ReviewData, the struct for review entries, fields as in the source. -/
structure ReviewData where
  ID : String
  UserDataID : String
  CTIDataID : String
  Accuracy : Int
  Timeliness : Int
  Completeness : Int
  Consistency : Int
  ReviewText : String
deriving DecidableEq, Repr

/-- A value stored on the ledger: a raw byte string (the sequence counters)
or the JSON marshalling of one of the three record types, kept structural. -/
inductive LVal where
  | raw (s : String)
  | cti (c : CTIData)
  | usr (u : UserData)
  | rev (r : ReviewData)
deriving DecidableEq, Repr

/-- Look a key up in the ledger store. -/
def storeLookup (l : List (String × LVal)) (k : String) : Option LVal :=
  match l with
  | [] => none
  | (k', v) :: t => if k' = k then some v else storeLookup t k

/-- Write a key, replacing any existing binding for it. -/
def storePut (l : List (String × LVal)) (k : String) (v : LVal) : List (String × LVal) :=
  match l with
  | [] => [(k, v)]
  | (k', v') :: t => if k' = k then (k, v) :: t else (k', v') :: storePut t k v

/-- Remove every binding of a key. -/
def storeDel (l : List (String × LVal)) (k : String) : List (String × LVal) :=
  l.filter (fun p => decide (p.1 ≠ k))

/-- Lexicographic strict order on character lists, the byte order Fabric
uses on (ASCII) keys. -/
def charListLt : List Char → List Char → Bool
  | [], [] => false
  | [], _ :: _ => true
  | _ :: _, [] => false
  | c :: t, c' :: t' => if c < c' then true else if c' < c then false else charListLt t t'

/-- Lexicographic strict order on keys. -/
def strLt (s t : String) : Bool := charListLt s.data t.data

/-- Fabric range membership: startKey inclusive, endKey exclusive. -/
def keyInRange (a b k : String) : Bool := !(strLt k a) && strLt k b

/-- Insert an entry into a key-sorted list. -/
def insertByKey (p : String × LVal) : List (String × LVal) → List (String × LVal)
  | [] => [p]
  | q :: t => if strLt p.1 q.1 then p :: q :: t else q :: insertByKey p t

/-- Sort entries by key (insertion sort). -/
def sortByKey : List (String × LVal) → List (String × LVal)
  | [] => []
  | p :: t => insertByKey p (sortByKey t)

/-- Entries of the store whose key is in the range, in key order. -/
def rangeScan (l : List (String × LVal)) (a b : String) : List (String × LVal) :=
  sortByKey (l.filter (fun p => keyInRange a b p.1))

/-- The Fabric chaincode stub: the ledger store plus injectable faults.
getErr k true makes a point read of k fail (returning nil bytes and an
error, as the Fabric API does); putErr k true makes a write or delete of k
fail. Both are identically false in fault-free scenarios. -/
structure Stub where
  store : List (String × LVal)
  getErr : String → Bool
  putErr : String → Bool

/-- A stub over a given store with no injected faults. -/
def Stub.ok (l : List (String × LVal)) : Stub :=
  ⟨l, fun _ => false, fun _ => false⟩

/-- A stub whose reads and writes never fail. -/
def Stub.NoFaults (s : Stub) : Prop :=
  (∀ k, s.getErr k = false) ∧ (∀ k, s.putErr k = false)

theorem Stub.ok_noFaults (l : List (String × LVal)) : (Stub.ok l).NoFaults :=
  ⟨fun _ => rfl, fun _ => rfl⟩

/-- GetState: nil bytes plus an error on a faulty read. -/
def Stub.getState (s : Stub) (k : String) : Option LVal × Option String :=
  if s.getErr k then (none, some "ledger read failed") else (storeLookup s.store k, none)

/-- The same stub with its store replaced; faults are untouched. -/
def Stub.withStore (s : Stub) (l : List (String × LVal)) : Stub :=
  { s with store := l }

@[simp] theorem Stub.withStore_store (s : Stub) (l : List (String × LVal)) :
    (s.withStore l).store = l := rfl

@[simp] theorem Stub.withStore_getErr (s : Stub) (l : List (String × LVal)) :
    (s.withStore l).getErr = s.getErr := rfl

@[simp] theorem Stub.withStore_putErr (s : Stub) (l : List (String × LVal)) :
    (s.withStore l).putErr = s.putErr := rfl

@[simp] theorem Stub.withStore_withStore (s : Stub) (l m : List (String × LVal)) :
    (s.withStore l).withStore m = s.withStore m := rfl

/-- PutState: the store is unchanged when the write fails. -/
def Stub.putState (s : Stub) (k : String) (v : LVal) : Stub × Option String :=
  if s.putErr k then (s, some "ledger write failed")
  else (s.withStore (storePut s.store k v), none)

/-- DelState: the store is unchanged when the delete fails. -/
def Stub.delState (s : Stub) (k : String) : Stub × Option String :=
  if s.putErr k then (s, some "ledger delete failed")
  else (s.withStore (storeDel s.store k), none)

/-- GetStateByRange, start inclusive and end exclusive, in key order. -/
def Stub.getStateByRange (s : Stub) (a b : String) : List (String × LVal) :=
  rangeScan s.store a b

/-- The value strconv.Atoi gives on the raw bytes of a stored value; a
marshalled record never parses as an integer. -/
def atoiLVal (v : LVal) : Option Int :=
  match v with
  | .raw str => goAtoi str
  | _ => none

/-- The write half of AddCTIItem: build the CTIData for the allocated
counter value, put it at key CTI_id, then put the counter back. -/
def AddCTIItemWrite (peer name : String) (timestamp : Int) (cid encryptKey : String)
    (points level : Int) (latestID : Int) (s : Stub) : Stub × Option String :=
  let item : CTIData :=
    { ID := goItoa latestID, Name := name, Uploader := peer, Timestamp := timestamp,
      CID := cid, EncryptKey := encryptKey, Points := points, Level := level }
  let r1 := s.putState ("CTI_" ++ goItoa latestID) (.cti item)
  match r1.2 with
  | some e => (r1.1, some ("failed to put CTI data on ledger: " ++ e))
  | none =>
    let r2 := r1.1.putState "latestID" (.raw (goItoa latestID))
    match r2.2 with
    | some e => (r2.1, some ("failed to update latest ID on ledger: " ++ e))
    | none => (r2.1, none)

/-- AddCTIItem from the source. It reads the intel counter at key latestID;
the error of that read is discarded, mirroring the commented-out early
return in the source, so a faulty read falls into the nil-bytes branch and
restarts the sequence at 1. On a successful read the stored counter is
parsed (failing like strconv.Atoi does on non-numeric bytes) and
incremented. The item is then written at key CTI_id and the counter is
written back; the function returns only the Go error value. -/
def AddCTIItem (peer name : String) (timestamp : Int) (cid encryptKey : String)
    (points level : Int) (s : Stub) : Stub × Option String :=
  let r := s.getState "latestID"
  match r.1 with
  | none =>
    AddCTIItemWrite peer name timestamp cid encryptKey points level 1 s
  | some v =>
    match atoiLVal v with
    | none => (s, some "failed to convert latest ID to integer")
    | some n =>
      AddCTIItemWrite peer name timestamp cid encryptKey points level (n + 1) s

/-- UpdateCTIItem from the source: existence check on key CTI_id, then a
full overwrite of the record with Uploader re-derived from the current
caller. -/
def UpdateCTIItem (peer id name : String) (timestamp : Int) (cid encryptKey : String)
    (points level : Int) (s : Stub) : Stub × Option String :=
  let r := s.getState ("CTI_" ++ id)
  match r.2 with
  | some e => (s, some ("failed to read CTI item from ledger: " ++ e))
  | none =>
    match r.1 with
    | none => (s, some ("CTI item with ID " ++ id ++ " does not exist"))
    | some _ =>
      let item : CTIData :=
        { ID := id, Name := name, Uploader := peer, Timestamp := timestamp,
          CID := cid, EncryptKey := encryptKey, Points := points, Level := level }
      let r1 := s.putState ("CTI_" ++ id) (.cti item)
      match r1.2 with
      | some e => (r1.1, some ("failed to put updated CTI item on ledger: " ++ e))
      | none => (r1.1, none)

/-- Unmarshal stored bytes as a CTIData record. -/
def unmarshalCTI (v : LVal) : Except String CTIData :=
  match v with
  | .cti c => .ok c
  | _ => .error "failed to unmarshal CTI data"

/-- GetCTIItem from the source: point read of key CTI_id for a numeric id. -/
def GetCTIItem (id : Int) (s : Stub) : Except String CTIData :=
  let r := s.getState ("CTI_" ++ goItoa id)
  match r.2 with
  | some e => .error e
  | none =>
    match r.1 with
    | none => .error ("CTI item with ID " ++ goItoa id ++ " does not exist")
    | some v => unmarshalCTI v

/-- GetAllCTIItems from the source: range scan from CTI_0 to the fixed
literal CTI_999999, unmarshalling every value in the range. -/
def GetAllCTIItems (s : Stub) : Except String (List CTIData) :=
  (s.getStateByRange "CTI_0" "CTI_999999").mapM (fun p => unmarshalCTI p.2)

/-- AddUserData from the source: unconditionally writes a UserData record
for the caller at key UserData_identity. The Go struct literal omits
UserLevel, so it is zero-initialised. -/
def AddUserData (peer : String) (uploadCount points subscribed balance : Int)
    (s : Stub) : Stub × Option String :=
  let u : UserData :=
    { ID := peer, UserLevel := 0, UploadCount := uploadCount, Points := points,
      Subscribed := subscribed, Balance := balance }
  s.putState ("UserData_" ++ peer) (.usr u)

/-- Unmarshal stored bytes as a UserData record. -/
def unmarshalUser (v : LVal) : Except String UserData :=
  match v with
  | .usr u => .ok u
  | _ => .error "failed to unmarshal user data"

/-- GetUserData from the source: reads the caller's record at key
UserData_identity; when absent it builds a zero-valued record (UserLevel
included, zero-initialised by the Go struct literal), persists it and
returns it. -/
def GetUserData (peer : String) (s : Stub) : Stub × Except String UserData :=
  let r := s.getState ("UserData_" ++ peer)
  match r.2 with
  | some e => (s, .error e)
  | none =>
    match r.1 with
    | none =>
      let u : UserData :=
        { ID := peer, UserLevel := 0, UploadCount := 0, Points := 0,
          Subscribed := 0, Balance := 0 }
      let r1 := s.putState ("UserData_" ++ peer) (.usr u)
      match r1.2 with
      | some e => (r1.1, .error ("failed to put user data on ledger: " ++ e))
      | none => (r1.1, .ok u)
    | some v => (s, unmarshalUser v)

/-- UpdateUserData from the source: requires an existing record, then
rewrites it with the four supplied fields, keeping the unmarshalled
record's ID and UserLevel. -/
def UpdateUserData (peer : String) (uploadCount points subscribed balance : Int)
    (s : Stub) : Stub × Option String :=
  let r := s.getState ("UserData_" ++ peer)
  match r.2 with
  | some e => (s, some e)
  | none =>
    match r.1 with
    | none => (s, some ("User data for peer " ++ peer ++ " does not exist"))
    | some v =>
      match unmarshalUser v with
      | .error _ => (s, some "failed to unmarshal existing user data")
      | .ok u =>
        let u2 : UserData :=
          { ID := u.ID, UserLevel := u.UserLevel, UploadCount := uploadCount,
            Points := points, Subscribed := subscribed, Balance := balance }
        let r1 := s.putState ("UserData_" ++ peer) (.usr u2)
        match r1.2 with
        | some e => (r1.1, some ("failed to put updated user data on ledger: " ++ e))
        | none => (r1.1, none)

/-- generateUniqueID from the source: reads the counter at key
latestID_prefix, surfacing the read error (unlike AddCTIItem); absent means
1, otherwise parse and increment; writes the counter back and returns
prefix_id. -/
def generateUniqueID (s : Stub) (pfx : String) : Stub × Except String String :=
  let r := s.getState ("latestID_" ++ pfx)
  match r.2 with
  | some e => (s, .error ("failed to read latest ID for prefix: " ++ e))
  | none =>
    let next : Except String Int :=
      match r.1 with
      | none => .ok 1
      | some v =>
        match atoiLVal v with
        | none => .error "failed to convert latest ID to integer"
        | some n => .ok (n + 1)
    match next with
    | .error e => (s, .error e)
    | .ok latestID =>
      let r1 := s.putState ("latestID_" ++ pfx) (.raw (goItoa latestID))
      match r1.2 with
      | some e => (r1.1, .error ("failed to update latest ID on ledger: " ++ e))
      | none => (r1.1, .ok (pfx ++ "_" ++ goItoa latestID))

/-- AddReviewData from the source: existence check of the referenced CTI
item, then review-ID allocation via generateUniqueID with prefix Review,
then the write of the review at key Review_reviewID (the allocated
reviewID already carries the Review_ prefix, so the storage key is
Review_Review_n). -/
def AddReviewData (peer ctiDataID : String)
    (accuracy timeliness completeness consistency : Int) (reviewText : String)
    (s : Stub) : Stub × Option String :=
  let r := s.getState ("CTI_" ++ ctiDataID)
  match r.2 with
  | some e => (s, some ("failed to read CTI item from ledger: " ++ e))
  | none =>
    match r.1 with
    | none => (s, some ("CTI item with ID " ++ ctiDataID ++ " does not exist"))
    | some _ =>
      let g := generateUniqueID s "Review"
      match g.2 with
      | .error e => (g.1, some ("failed to generate review ID: " ++ e))
      | .ok reviewID =>
        let review : ReviewData :=
          { ID := reviewID, UserDataID := peer, CTIDataID := ctiDataID,
            Accuracy := accuracy, Timeliness := timeliness,
            Completeness := completeness, Consistency := consistency,
            ReviewText := reviewText }
        let r1 := g.1.putState ("Review_" ++ reviewID) (.rev review)
        match r1.2 with
        | some e => (r1.1, some ("failed to put review data on ledger: " ++ e))
        | none => (r1.1, none)

/-- Unmarshal stored bytes as a ReviewData record. -/
def unmarshalReview (v : LVal) : Except String ReviewData :=
  match v with
  | .rev r => .ok r
  | _ => .error "failed to unmarshal review data"

/-- GetAllReviewData from the source: range scan from Review_ to the
literal Review_z. -/
def GetAllReviewData (s : Stub) : Except String (List ReviewData) :=
  (s.getStateByRange "Review_" "Review_z").mapM (fun p => unmarshalReview p.2)

/-- GetReviewDataByCTIDataID from the source: full review scan, then an
in-memory filter on the CTIDataID foreign key. -/
def GetReviewDataByCTIDataID (s : Stub) (ctiDataID : String) :
    Except String (List ReviewData) :=
  match GetAllReviewData s with
  | .error e => .error ("failed to get all review data entries: " ++ e)
  | .ok l => .ok (l.filter (fun r => decide (r.CTIDataID = ctiDataID)))

/-- GetCTIItemsFilteredBySubscriptionLevel from the source: all items via
GetAllCTIItems, the caller's record via GetUserData (creating it when
absent), then the in-memory filter Level <= Subscribed. -/
def GetCTIItemsFilteredBySubscriptionLevel (peer : String) (s : Stub) :
    Stub × Except String (List CTIData) :=
  match GetAllCTIItems s with
  | .error e => (s, .error ("failed to get all CTI data entries: " ++ e))
  | .ok allItems =>
    let g := GetUserData peer s
    match g.2 with
    | .error e => (g.1, .error ("failed to get user data: " ++ e))
    | .ok u => (g.1, .ok (allItems.filter (fun c => decide (c.Level ≤ u.Subscribed))))

/-- DeleteCTIItemByID from the source: existence check on key CTI_id, then
DelState of that single key. -/
def DeleteCTIItemByID (id : String) (s : Stub) : Stub × Option String :=
  let r := s.getState ("CTI_" ++ id)
  match r.2 with
  | some e => (s, some ("failed to read CTI data entry: " ++ e))
  | none =>
    match r.1 with
    | none => (s, some ("CTI data entry with ID " ++ id ++ " does not exist"))
    | some _ =>
      let d := s.delState ("CTI_" ++ id)
      match d.2 with
      | some e => (d.1, some ("failed to delete CTI data entry: " ++ e))
      | none => (d.1, none)

theorem storeLookup_storePut_self (l : List (String × LVal)) (k : String) (v : LVal) :
    storeLookup (storePut l k v) k = some v := by
  induction l with
  | nil => simp [storePut, storeLookup]
  | cons p t ih =>
    by_cases h : p.1 = k
    · simp [storePut, storeLookup, h]
    · simp only [storePut, storeLookup]
      rw [if_neg h, storeLookup, if_neg h]
      exact ih

theorem storeLookup_storePut_ne (l : List (String × LVal)) (k k' : String) (v : LVal)
    (h : k' ≠ k) : storeLookup (storePut l k v) k' = storeLookup l k' := by
  have h' : ¬ k = k' := fun he => h he.symm
  induction l with
  | nil => simp [storePut, storeLookup, h']
  | cons p t ih =>
    by_cases hp : p.1 = k
    · simp [storePut, storeLookup, hp, h']
    · simp only [storePut, hp, if_false]
      by_cases hq : p.1 = k'
      · simp [storeLookup, hq]
      · simp [storeLookup, hq, ih]

theorem storeLookup_storeDel (l : List (String × LVal)) (k k' : String) :
    storeLookup (storeDel l k) k' = if k' = k then none else storeLookup l k' := by
  induction l with
  | nil => simp [storeDel, storeLookup]
  | cons p t ih =>
    have hDel : storeDel (p :: t) k
        = if p.1 = k then storeDel t k else p :: storeDel t k := by
      by_cases hp : p.1 = k <;> simp [storeDel, List.filter_cons, hp]
    rw [hDel]
    by_cases hp : p.1 = k
    · rw [if_pos hp, ih]
      by_cases hq : k' = k
      · simp [hq]
      · rw [if_neg hq, if_neg hq, storeLookup]
        have hne : ¬ p.1 = k' := by rw [hp]; exact fun he => hq he.symm
        rw [if_neg hne]
    · rw [if_neg hp, storeLookup, storeLookup]
      by_cases hq : p.1 = k'
      · have hne : ¬ k' = k := fun he => hp (hq.trans he)
        rw [if_pos hq, if_pos hq, if_neg hne]
      · rw [if_neg hq, if_neg hq, ih]

theorem charListLt_irrefl (l : List Char) : charListLt l l = false := by
  induction l with
  | nil => rfl
  | cons c t ih => simp [charListLt, ih]

theorem strLt_irrefl (s : String) : strLt s s = false := charListLt_irrefl s.data

theorem ne_of_strLt (s t : String) (h : strLt s t = true) : s ≠ t := by
  intro he
  rw [he, strLt_irrefl] at h
  exact Bool.false_ne_true h

theorem data_append (s t : String) : (s ++ t).data = s.data ++ t.data := rfl

theorem strLt_CTI_latestID (x : String) : strLt ("CTI_" ++ x) "latestID" = true := by
  show charListLt (("CTI_" ++ x).data) "latestID".data = true
  rw [data_append]
  show charListLt ('C' :: ('T' :: ('I' :: ('_' :: x.data)))) ('l' :: "atestID".data) = true
  simp [charListLt]

theorem strLt_CTI_Review (x : String) : strLt ("CTI_" ++ x) "Review_" = true := by
  show charListLt (("CTI_" ++ x).data) "Review_".data = true
  rw [data_append]
  show charListLt ('C' :: ('T' :: ('I' :: ('_' :: x.data)))) ('R' :: "eview_".data) = true
  simp [charListLt]

theorem strLt_UserData_CTIEnd (x : String) :
    strLt ("UserData_" ++ x) "CTI_999999" = false := by
  show charListLt (("UserData_" ++ x).data) "CTI_999999".data = false
  rw [data_append]
  show charListLt ('U' :: "serData_".data ++ x.data) ('C' :: "TI_999999".data) = false
  simp [charListLt]

theorem keyInRange_userData_cti (x : String) :
    keyInRange "CTI_0" "CTI_999999" ("UserData_" ++ x) = false := by
  unfold keyInRange
  rw [strLt_UserData_CTIEnd]
  simp

theorem keyInRange_cti_review (x : String) :
    keyInRange "Review_" "Review_z" ("CTI_" ++ x) = false := by
  unfold keyInRange
  rw [strLt_CTI_Review]
  simp

theorem filter_storePut_out (l : List (String × LVal)) (k : String) (v : LVal)
    (p : String → Bool) (hp : p k = false) :
    (storePut l k v).filter (fun q => p q.1) = l.filter (fun q => p q.1) := by
  induction l with
  | nil => simp [storePut, List.filter_cons, hp]
  | cons q t ih =>
    by_cases hq : q.1 = k
    · simp only [storePut, hq, if_true]
      rw [List.filter_cons, List.filter_cons]
      simp [hp, hq]
    · simp only [storePut, hq, if_false]
      rw [List.filter_cons, List.filter_cons]
      simp only [ih]

theorem filter_storeDel_out (l : List (String × LVal)) (k : String)
    (p : String → Bool) (hp : p k = false) :
    (storeDel l k).filter (fun q => p q.1) = l.filter (fun q => p q.1) := by
  induction l with
  | nil => rfl
  | cons q t ih =>
    have hDel : storeDel (q :: t) k
        = if q.1 = k then storeDel t k else q :: storeDel t k := by
      by_cases hq : q.1 = k <;> simp [storeDel, List.filter_cons, hq]
    rw [hDel]
    by_cases hq : q.1 = k
    · rw [if_pos hq, ih, List.filter_cons]
      simp [hq, hp]
    · rw [if_neg hq, List.filter_cons, List.filter_cons]
      simp only [ih]

theorem rangeScan_storePut_out (l : List (String × LVal)) (k : String) (v : LVal)
    (a b : String) (h : keyInRange a b k = false) :
    rangeScan (storePut l k v) a b = rangeScan l a b := by
  unfold rangeScan
  rw [filter_storePut_out l k v (fun x => keyInRange a b x) h]

theorem rangeScan_storeDel_out (l : List (String × LVal)) (k : String)
    (a b : String) (h : keyInRange a b k = false) :
    rangeScan (storeDel l k) a b = rangeScan l a b := by
  unfold rangeScan
  rw [filter_storeDel_out l k (fun x => keyInRange a b x) h]

/-- Argument bundle for one AddCTIItem call. -/
structure AddArgs where
  peer : String
  name : String
  timestamp : Int
  cid : String
  encryptKey : String
  points : Int
  level : Int

/-- One AddCTIItem call with bundled arguments. -/
def addStep (a : AddArgs) (s : Stub) : Stub × Option String :=
  AddCTIItem a.peer a.name a.timestamp a.cid a.encryptKey a.points a.level s

/-- Per-call observations of a sequence of AddCTIItem calls: the returned
error and the counter bytes stored at latestID after each call. -/
def intelTrace : List AddArgs → Stub → List (Option String × Option LVal)
  | [], _ => []
  | a :: t, s => ((addStep a s).2, storeLookup (addStep a s).1.store "latestID")
      :: intelTrace t (addStep a s).1

/-- The counter value the intel allocation step of AddCTIItem yields on a
given store, per the source's read-parse-increment logic. -/
def nextIntelID (l : List (String × LVal)) : Option Int :=
  match storeLookup l "latestID" with
  | none => some 1
  | some v => (atoiLVal v).map (fun n => n + 1)

/-- The counter value generateUniqueID yields for a prefix on a given
store, per the source's read-parse-increment logic. -/
def nextSeqID (l : List (String × LVal)) (pfx : String) : Option Int :=
  match storeLookup l ("latestID_" ++ pfx) with
  | none => some 1
  | some v => (atoiLVal v).map (fun n => n + 1)

theorem noFaults_withStore (s : Stub) (l : List (String × LVal)) (hff : s.NoFaults) :
    (s.withStore l).NoFaults := hff

theorem AddCTIItemWrite_ok (peer name : String) (timestamp : Int)
    (cid encryptKey : String) (points level : Int) (m : Int) (s : Stub)
    (hff : s.NoFaults) :
    AddCTIItemWrite peer name timestamp cid encryptKey points level m s
      = (s.withStore (storePut (storePut s.store ("CTI_" ++ goItoa m)
            (.cti ⟨goItoa m, name, peer, timestamp, cid, encryptKey, points, level⟩))
            "latestID" (.raw (goItoa m))), none) := by
  unfold AddCTIItemWrite Stub.putState
  simp [hff.2]

theorem AddCTIItem_ok_of_next (peer name : String) (timestamp : Int)
    (cid encryptKey : String) (points level : Int) (s : Stub) (i : Int)
    (hff : s.NoFaults) (hi : nextIntelID s.store = some i) :
    AddCTIItem peer name timestamp cid encryptKey points level s
      = (s.withStore (storePut (storePut s.store ("CTI_" ++ goItoa i)
            (.cti ⟨goItoa i, name, peer, timestamp, cid, encryptKey, points, level⟩))
            "latestID" (.raw (goItoa i))), none) := by
  unfold nextIntelID at hi
  unfold AddCTIItem Stub.getState
  rw [hff.1]
  cases hl : storeLookup s.store "latestID" with
  | none =>
    rw [hl] at hi
    have hi' : (1 : Int) = i := Option.some_injective _ hi
    subst hi'
    exact AddCTIItemWrite_ok peer name timestamp cid encryptKey points level 1 s hff
  | some v =>
    rw [hl] at hi
    have hi' : Option.map (fun n => n + 1) (atoiLVal v) = some i := hi
    cases hv : atoiLVal v with
    | none =>
      rw [hv] at hi'
      simp at hi'
    | some n =>
      rw [hv] at hi'
      simp only [Option.map_some'] at hi'
      have hn : n + 1 = i := Option.some_injective _ hi'
      simp only [Bool.false_eq_true, if_false, hv]
      rw [← hn]
      exact AddCTIItemWrite_ok peer name timestamp cid encryptKey points level (n + 1) s hff

theorem nextIntelID_absent (l : List (String × LVal))
    (h : storeLookup l "latestID" = none) : nextIntelID l = some 1 := by
  unfold nextIntelID
  rw [h]

theorem nextIntelID_counter (l : List (String × LVal)) (n : Nat)
    (h : storeLookup l "latestID" = some (.raw (natRepr n))) :
    nextIntelID l = some ((n : Int) + 1) := by
  unfold nextIntelID
  rw [h]
  simp [atoiLVal, goAtoi_natRepr]

theorem goItoa_cast_succ (n : Nat) : goItoa ((n : Int) + 1) = natRepr (n + 1) := by
  rw [show ((n : Int) + 1) = ((n + 1 : Nat) : Int) by push_cast; ring]
  exact goItoa_ofNat (n + 1)

theorem GetUserData_absent (peer : String) (s : Stub) (hff : s.NoFaults)
    (h : storeLookup s.store ("UserData_" ++ peer) = none) :
    GetUserData peer s
      = (s.withStore (storePut s.store ("UserData_" ++ peer)
          (.usr ⟨peer, 0, 0, 0, 0, 0⟩)), .ok ⟨peer, 0, 0, 0, 0, 0⟩) := by
  unfold GetUserData Stub.getState Stub.putState
  rw [hff.1, hff.2]
  simp [h]

theorem GetUserData_present (peer : String) (s : Stub) (u : UserData) (hff : s.NoFaults)
    (h : storeLookup s.store ("UserData_" ++ peer) = some (.usr u)) :
    GetUserData peer s = (s, .ok u) := by
  unfold GetUserData Stub.getState
  rw [hff.1]
  simp [h, unmarshalUser]

theorem UpdateUserData_absent (peer : String) (uploadCount points subscribed balance : Int)
    (s : Stub) (hff : s.NoFaults)
    (h : storeLookup s.store ("UserData_" ++ peer) = none) :
    UpdateUserData peer uploadCount points subscribed balance s
      = (s, some ("User data for peer " ++ peer ++ " does not exist")) := by
  unfold UpdateUserData Stub.getState
  rw [hff.1]
  simp [h]

theorem UpdateUserData_present (peer : String) (uploadCount points subscribed balance : Int)
    (s : Stub) (u : UserData) (hff : s.NoFaults)
    (h : storeLookup s.store ("UserData_" ++ peer) = some (.usr u)) :
    UpdateUserData peer uploadCount points subscribed balance s
      = (s.withStore (storePut s.store ("UserData_" ++ peer)
          (.usr ⟨u.ID, u.UserLevel, uploadCount, points, subscribed, balance⟩)), none) := by
  unfold UpdateUserData Stub.getState Stub.putState
  rw [hff.1, hff.2]
  simp [h, unmarshalUser]

theorem AddUserData_ok (peer : String) (uploadCount points subscribed balance : Int)
    (s : Stub) (hff : s.NoFaults) :
    AddUserData peer uploadCount points subscribed balance s
      = (s.withStore (storePut s.store ("UserData_" ++ peer)
          (.usr ⟨peer, 0, uploadCount, points, subscribed, balance⟩)), none) := by
  unfold AddUserData Stub.putState
  rw [hff.2]
  simp

theorem DeleteCTIItemByID_present (id : String) (s : Stub) (v : LVal) (hff : s.NoFaults)
    (h : storeLookup s.store ("CTI_" ++ id) = some v) :
    DeleteCTIItemByID id s = (s.withStore (storeDel s.store ("CTI_" ++ id)), none) := by
  unfold DeleteCTIItemByID Stub.getState Stub.delState
  rw [hff.1, hff.2]
  simp [h]

theorem DeleteCTIItemByID_absent (id : String) (s : Stub) (hff : s.NoFaults)
    (h : storeLookup s.store ("CTI_" ++ id) = none) :
    DeleteCTIItemByID id s
      = (s, some ("CTI data entry with ID " ++ id ++ " does not exist")) := by
  unfold DeleteCTIItemByID Stub.getState
  rw [hff.1]
  simp [h]

theorem GetAllCTIItems_withStore_put_out (s : Stub) (l : List (String × LVal))
    (k : String) (v : LVal) (h : keyInRange "CTI_0" "CTI_999999" k = false) :
    GetAllCTIItems (s.withStore (storePut l k v)) = GetAllCTIItems (s.withStore l) := by
  unfold GetAllCTIItems Stub.getStateByRange
  rw [Stub.withStore_store, Stub.withStore_store, rangeScan_storePut_out l k v _ _ h]

theorem withStore_self (s : Stub) : s.withStore s.store = s := rfl

theorem GetReviewData_withStore_del_cti (s : Stub) (id q : String) :
    GetReviewDataByCTIDataID (s.withStore (storeDel s.store ("CTI_" ++ id))) q
      = GetReviewDataByCTIDataID s q := by
  unfold GetReviewDataByCTIDataID GetAllReviewData Stub.getStateByRange
  rw [Stub.withStore_store,
    rangeScan_storeDel_out s.store ("CTI_" ++ id) _ _ (keyInRange_cti_review id)]

/-- C5: UpdateCTIItem called with an id for which no intel item is stored
returns the does-not-exist error and leaves the stub exactly unchanged (no
ledger write), and AddReviewData called with a ctiDataID referencing no
stored intel item likewise returns the does-not-exist error with the stub
exactly unchanged: no review is written and no sequence counter advances. -/
theorem C5_notFound_no_write (s : Stub) (hff : s.NoFaults)
    (peer id name cid encryptKey reviewText : String)
    (timestamp points level accuracy timeliness completeness consistency : Int)
    (h : storeLookup s.store ("CTI_" ++ id) = none) :
    UpdateCTIItem peer id name timestamp cid encryptKey points level s
        = (s, some ("CTI item with ID " ++ id ++ " does not exist"))
    ∧ AddReviewData peer id accuracy timeliness completeness consistency reviewText s
        = (s, some ("CTI item with ID " ++ id ++ " does not exist")) := by
  constructor
  · unfold UpdateCTIItem Stub.getState
    rw [hff.1]
    simp [h]
  · unfold AddReviewData Stub.getState
    rw [hff.1]
    simp [h]

/-- C5 witness: the theorem instantiated at the empty fault-free ledger
and id 5. -/
theorem C5_notFound_no_write_witness :
    UpdateCTIItem "p" "5" "n" 0 "c" "k" 1 2 (Stub.ok [])
        = (Stub.ok [], some ("CTI item with ID " ++ "5" ++ " does not exist"))
    ∧ AddReviewData "p" "5" 1 2 3 4 "text" (Stub.ok [])
        = (Stub.ok [], some ("CTI item with ID " ++ "5" ++ " does not exist")) :=
  C5_notFound_no_write (Stub.ok []) (Stub.ok_noFaults []) "p" "5" "n" "c" "k" "text"
    0 1 2 1 2 3 4 rfl

/-- C7: for a caller identity with no stored record, GetUserData persists
the zero-valued record for that identity and returns it, the record is
visible in the store right after the call, and a second consecutive call
returns the identical record with no further state change: the zero record
is durable state, not an ephemeral default. -/
theorem C7_get_or_create_durable (s : Stub) (hff : s.NoFaults) (peer : String)
    (h : storeLookup s.store ("UserData_" ++ peer) = none) :
    GetUserData peer s
        = (s.withStore (storePut s.store ("UserData_" ++ peer)
            (.usr ⟨peer, 0, 0, 0, 0, 0⟩)), .ok ⟨peer, 0, 0, 0, 0, 0⟩)
    ∧ storeLookup (GetUserData peer s).1.store ("UserData_" ++ peer)
        = some (.usr ⟨peer, 0, 0, 0, 0, 0⟩)
    ∧ GetUserData peer (GetUserData peer s).1
        = ((GetUserData peer s).1, .ok ⟨peer, 0, 0, 0, 0, 0⟩) := by
  have h1 := GetUserData_absent peer s hff h
  refine ⟨h1, ?_, ?_⟩
  · rw [h1]
    exact storeLookup_storePut_self s.store ("UserData_" ++ peer) _
  · rw [h1]
    exact GetUserData_present peer _ ⟨peer, 0, 0, 0, 0, 0⟩
      (noFaults_withStore s _ hff)
      (storeLookup_storePut_self s.store ("UserData_" ++ peer) _)

/-- C7 witness: the theorem instantiated at the empty fault-free ledger. -/
theorem C7_get_or_create_durable_witness :
    GetUserData "p" (Stub.ok [])
        = ((Stub.ok []).withStore (storePut [] ("UserData_" ++ "p")
            (.usr ⟨"p", 0, 0, 0, 0, 0⟩)), .ok ⟨"p", 0, 0, 0, 0, 0⟩)
    ∧ storeLookup (GetUserData "p" (Stub.ok [])).1.store ("UserData_" ++ "p")
        = some (.usr ⟨"p", 0, 0, 0, 0, 0⟩)
    ∧ GetUserData "p" (GetUserData "p" (Stub.ok [])).1
        = ((GetUserData "p" (Stub.ok [])).1, .ok ⟨"p", 0, 0, 0, 0, 0⟩) :=
  C7_get_or_create_durable (Stub.ok []) (Stub.ok_noFaults []) "p" rfl

/-- C1: the failing ledger read of the intel counter is silently swallowed
by AddCTIItem, contradicting the claim: with an injected read fault on key
latestID, a stored counter of 7 and an existing item at key CTI_1, the call
reports no error, proceeds with the default counter value 1, overwrites the
stored item CTI_1 with a fresh item whose ID is 1, and resets the stored
counter bytes to 1. The review-side allocator generateUniqueID, by
contrast, surfaces the same injected fault as an error and leaves the store
unchanged, exactly as the claim demands. -/
theorem C1_intel_read_fault_swallowed :
    (let s : Stub := ⟨[("latestID", .raw "7"),
        ("CTI_1", .cti ⟨"1", "old", "q", 5, "oc", "ok", 8, 9⟩)],
      fun k => decide (k = "latestID"), fun _ => false⟩
     (AddCTIItem "p" "new" 9 "c" "k" 2 3 s).2 = none
     ∧ storeLookup (AddCTIItem "p" "new" 9 "c" "k" 2 3 s).1.store "CTI_1"
        = some (.cti ⟨"1", "new", "p", 9, "c", "k", 2, 3⟩)
     ∧ storeLookup (AddCTIItem "p" "new" 9 "c" "k" 2 3 s).1.store "latestID"
        = some (.raw "1"))
    ∧ (let s2 : Stub := ⟨[("latestID_Review", .raw "7")],
        fun k => decide (k = "latestID_Review"), fun _ => false⟩
       (generateUniqueID s2 "Review").2
        = .error ("failed to read latest ID for prefix: " ++ "ledger read failed")
       ∧ (generateUniqueID s2 "Review").1.store = s2.store) := by
  exact ⟨⟨rfl, rfl, rfl⟩, rfl, rfl⟩

/-- C3: the fixed scan end CTI_999999 of GetAllCTIItems silently drops
allocatable intel IDs, contradicting the claim that the endpoints contain
every ID the sequence can allocate: from a ledger whose intel counter reads
9999998, AddCTIItem succeeds and stores item 9999999 at key CTI_9999999,
and GetCTIItem 9999999 returns it, yet GetAllCTIItems returns the empty
list, because CTI_9999999 sorts lexicographically after the fixed end key
CTI_999999. -/
theorem C3_fixed_range_end_drops_items :
    (let r := AddCTIItem "p" "n" 0 "c" "k" 1 2 (Stub.ok [("latestID", .raw "9999998")])
     r.2 = none
     ∧ storeLookup r.1.store "CTI_9999999"
        = some (.cti ⟨"9999999", "n", "p", 0, "c", "k", 1, 2⟩)
     ∧ GetCTIItem 9999999 r.1 = .ok ⟨"9999999", "n", "p", 0, "c", "k", 1, 2⟩
     ∧ GetAllCTIItems r.1 = .ok []) := by
  exact ⟨rfl, rfl, rfl, rfl⟩

/-- C6 counterexample: UpdateUserData is not a full overwrite of the stored
account. Two stores that agree on every field the operation receives but
differ in the stored record's UserLevel field produce different stored
records after the identical UpdateUserData call: the hidden UserLevel 5 and
UserLevel 0 both survive the update. A full overwrite would make the
post-state independent of the prior record. -/
theorem C6_counterexample :
    storeLookup (UpdateUserData "p" 1 2 3 4
        (Stub.ok [("UserData_p", .usr ⟨"p", 5, 9, 9, 9, 9⟩)])).1.store "UserData_p"
      = some (.usr ⟨"p", 5, 1, 2, 3, 4⟩)
    ∧ storeLookup (UpdateUserData "p" 1 2 3 4
        (Stub.ok [("UserData_p", .usr ⟨"p", 0, 9, 9, 9, 9⟩)])).1.store "UserData_p"
      = some (.usr ⟨"p", 0, 1, 2, 3, 4⟩)
    ∧ storeLookup (UpdateUserData "p" 1 2 3 4
        (Stub.ok [("UserData_p", .usr ⟨"p", 5, 9, 9, 9, 9⟩)])).1.store "UserData_p"
      ≠ storeLookup (UpdateUserData "p" 1 2 3 4
        (Stub.ok [("UserData_p", .usr ⟨"p", 0, 9, 9, 9, 9⟩)])).1.store "UserData_p" := by
  exact ⟨rfl, rfl, by decide⟩

/-- C6 amended: UpdateUserData fails with the does-not-exist error and
performs no write when no record exists for the calling identity; when a
record exists it persists, under the caller's key, the record taking the
four supplied fields UploadCount, Points, Subscribed and Balance while
preserving the stored ID and the stored UserLevel — a field merge rather
than a full overwrite. -/
theorem C6_amended_update_account (s : Stub) (hff : s.NoFaults) (peer : String)
    (uploadCount points subscribed balance : Int) :
    (storeLookup s.store ("UserData_" ++ peer) = none →
      UpdateUserData peer uploadCount points subscribed balance s
        = (s, some ("User data for peer " ++ peer ++ " does not exist")))
    ∧ ∀ u, storeLookup s.store ("UserData_" ++ peer) = some (.usr u) →
        UpdateUserData peer uploadCount points subscribed balance s
          = (s.withStore (storePut s.store ("UserData_" ++ peer)
              (.usr ⟨u.ID, u.UserLevel, uploadCount, points, subscribed, balance⟩)),
             none) := by
  constructor
  · intro h
    exact UpdateUserData_absent peer uploadCount points subscribed balance s hff h
  · intro u h
    exact UpdateUserData_present peer uploadCount points subscribed balance s u hff h

/-- C6 amended witness: both branches of the theorem at concrete stores. -/
theorem C6_amended_update_account_witness :
    (UpdateUserData "p" 1 2 3 4 (Stub.ok [])
      = (Stub.ok [], some ("User data for peer " ++ "p" ++ " does not exist")))
    ∧ (UpdateUserData "p" 1 2 3 4 (Stub.ok [("UserData_p", .usr ⟨"p", 5, 9, 9, 9, 9⟩)])
      = ((Stub.ok [("UserData_p", .usr ⟨"p", 5, 9, 9, 9, 9⟩)]).withStore
          (storePut [("UserData_p", .usr ⟨"p", 5, 9, 9, 9, 9⟩)] ("UserData_" ++ "p")
            (.usr ⟨"p", 5, 1, 2, 3, 4⟩)), none)) :=
  ⟨(C6_amended_update_account (Stub.ok []) (Stub.ok_noFaults []) "p" 1 2 3 4).1 rfl,
   (C6_amended_update_account (Stub.ok [("UserData_p", .usr ⟨"p", 5, 9, 9, 9, 9⟩)])
      (Stub.ok_noFaults _) "p" 1 2 3 4).2 ⟨"p", 5, 9, 9, 9, 9⟩ (by decide)⟩

/-- C10: the stored account record carries a UserLevel field absent from
the spec's account model. UpdateUserData preserves both the stored ID and
the stored UserLevel while replacing only UploadCount, Points, Subscribed
and Balance — the update observed at the store is a field merge — and the
two record-creating operations AddUserData and GetUserData (its creating
branch) both initialise UserLevel to zero, so no public operation gives
UserLevel a nonzero value after creation. -/
theorem C10_userLevel_hidden_field (s : Stub) (hff : s.NoFaults) (peer : String)
    (uploadCount points subscribed balance : Int) :
    (∀ u, storeLookup s.store ("UserData_" ++ peer) = some (.usr u) →
      storeLookup (UpdateUserData peer uploadCount points subscribed balance s).1.store
          ("UserData_" ++ peer)
        = some (.usr ⟨u.ID, u.UserLevel, uploadCount, points, subscribed, balance⟩))
    ∧ storeLookup (AddUserData peer uploadCount points subscribed balance s).1.store
        ("UserData_" ++ peer)
      = some (.usr ⟨peer, 0, uploadCount, points, subscribed, balance⟩)
    ∧ (storeLookup s.store ("UserData_" ++ peer) = none →
      storeLookup (GetUserData peer s).1.store ("UserData_" ++ peer)
        = some (.usr ⟨peer, 0, 0, 0, 0, 0⟩)) := by
  refine ⟨?_, ?_, ?_⟩
  · intro u h
    rw [UpdateUserData_present peer uploadCount points subscribed balance s u hff h]
    exact storeLookup_storePut_self s.store ("UserData_" ++ peer) _
  · rw [AddUserData_ok peer uploadCount points subscribed balance s hff]
    exact storeLookup_storePut_self s.store ("UserData_" ++ peer) _
  · intro h
    rw [GetUserData_absent peer s hff h]
    exact storeLookup_storePut_self s.store ("UserData_" ++ peer) _

/-- C10 witness: the three parts of the theorem at concrete stores, with a
nonzero stored UserLevel surviving the update. -/
theorem C10_userLevel_hidden_field_witness :
    storeLookup (UpdateUserData "p" 1 2 3 4
        (Stub.ok [("UserData_p", .usr ⟨"p", 7, 9, 9, 9, 9⟩)])).1.store
        ("UserData_" ++ "p")
      = some (.usr ⟨"p", 7, 1, 2, 3, 4⟩)
    ∧ storeLookup (AddUserData "p" 1 2 3 4 (Stub.ok [])).1.store ("UserData_" ++ "p")
      = some (.usr ⟨"p", 0, 1, 2, 3, 4⟩)
    ∧ storeLookup (GetUserData "p" (Stub.ok [])).1.store ("UserData_" ++ "p")
      = some (.usr ⟨"p", 0, 0, 0, 0, 0⟩) :=
  ⟨(C10_userLevel_hidden_field (Stub.ok [("UserData_p", .usr ⟨"p", 7, 9, 9, 9, 9⟩)])
      (Stub.ok_noFaults _) "p" 1 2 3 4).1 ⟨"p", 7, 9, 9, 9, 9⟩ (by decide),
   (C10_userLevel_hidden_field (Stub.ok []) (Stub.ok_noFaults []) "p" 1 2 3 4).2.1,
   (C10_userLevel_hidden_field (Stub.ok []) (Stub.ok_noFaults []) "p" 1 2 3 4).2.2 rfl⟩

/-- C9: DeleteCTIItemByID on an absent id fails with the does-not-exist
error and changes nothing; on a stored id it succeeds, after which the key
is gone, GetCTIItem of the matching numeric id reports the item missing,
and GetReviewDataByCTIDataID is unchanged for every queried id: reviews
previously created against the deleted item are still returned (no
cascade). -/
theorem C9_delete_no_cascade (s : Stub) (hff : s.NoFaults) (id : String) :
    (storeLookup s.store ("CTI_" ++ id) = none →
      DeleteCTIItemByID id s
        = (s, some ("CTI data entry with ID " ++ id ++ " does not exist")))
    ∧ ∀ v, storeLookup s.store ("CTI_" ++ id) = some v →
        (DeleteCTIItemByID id s).2 = none
        ∧ storeLookup (DeleteCTIItemByID id s).1.store ("CTI_" ++ id) = none
        ∧ (∀ n : Int, goItoa n = id →
            GetCTIItem n (DeleteCTIItemByID id s).1
              = .error ("CTI item with ID " ++ goItoa n ++ " does not exist"))
        ∧ ∀ q, GetReviewDataByCTIDataID (DeleteCTIItemByID id s).1 q
            = GetReviewDataByCTIDataID s q := by
  constructor
  · intro h
    exact DeleteCTIItemByID_absent id s hff h
  · intro v h
    have hd := DeleteCTIItemByID_present id s v hff h
    have hgone : storeLookup (DeleteCTIItemByID id s).1.store ("CTI_" ++ id) = none := by
      rw [hd, Stub.withStore_store, storeLookup_storeDel]
      simp
    refine ⟨by rw [hd], hgone, ?_, ?_⟩
    · intro n hn
      unfold GetCTIItem Stub.getState
      have hge : (DeleteCTIItemByID id s).1.getErr = s.getErr := by
        rw [hd, Stub.withStore_getErr]
      rw [hge, hff.1, hn, hgone]
      rfl
    · intro q
      rw [hd]
      exact GetReviewData_withStore_del_cti s id q

/-- C9 witness: the theorem applied to the empty store for the absent
branch, and to a store holding item 3 plus a review of item 3 for the
present branch; the review query result is unchanged by the delete. -/
theorem C9_delete_no_cascade_witness :
    (DeleteCTIItemByID "9" (Stub.ok [])
      = (Stub.ok [], some ("CTI data entry with ID " ++ "9" ++ " does not exist")))
    ∧ (let s := Stub.ok [("CTI_3", .cti ⟨"3", "n", "p", 0, "c", "k", 1, 2⟩),
        ("Review_Review_1", .rev ⟨"Review_1", "q", "3", 1, 2, 3, 4, "t"⟩)]
       (DeleteCTIItemByID "3" s).2 = none
       ∧ storeLookup (DeleteCTIItemByID "3" s).1.store ("CTI_" ++ "3") = none
       ∧ GetCTIItem 3 (DeleteCTIItemByID "3" s).1
          = .error ("CTI item with ID " ++ goItoa 3 ++ " does not exist")
       ∧ GetReviewDataByCTIDataID (DeleteCTIItemByID "3" s).1 "3"
          = GetReviewDataByCTIDataID s "3") := by
  refine ⟨(C9_delete_no_cascade (Stub.ok []) (Stub.ok_noFaults []) "9").1 rfl, ?_⟩
  have h := (C9_delete_no_cascade
    (Stub.ok [("CTI_3", .cti ⟨"3", "n", "p", 0, "c", "k", 1, 2⟩),
      ("Review_Review_1", .rev ⟨"Review_1", "q", "3", 1, 2, 3, 4, "t"⟩)])
    (Stub.ok_noFaults _) "3").2 (.cti ⟨"3", "n", "p", 0, "c", "k", 1, 2⟩) (by decide)
  exact ⟨h.1, h.2.1, h.2.2.1 3 rfl, h.2.2.2 "3"⟩

theorem putState_ok (s : Stub) (k : String) (v : LVal) (hff : s.NoFaults) :
    s.putState k v = (s.withStore (storePut s.store k v), none) := by
  unfold Stub.putState
  rw [hff.2]
  simp

theorem generateUniqueID_ok (s : Stub) (pfx : String) (j : Int) (hff : s.NoFaults)
    (hj : nextSeqID s.store pfx = some j) :
    generateUniqueID s pfx
      = (s.withStore (storePut s.store ("latestID_" ++ pfx) (.raw (goItoa j))),
         .ok (pfx ++ "_" ++ goItoa j)) := by
  unfold nextSeqID at hj
  unfold generateUniqueID Stub.getState
  rw [hff.1]
  cases hl : storeLookup s.store ("latestID_" ++ pfx) with
  | none =>
    rw [hl] at hj
    have hj' : (1 : Int) = j := Option.some_injective _ hj
    subst hj'
    simp only [Bool.false_eq_true, if_false]
    rw [putState_ok s _ _ hff]
  | some v =>
    rw [hl] at hj
    have hj' : Option.map (fun n => n + 1) (atoiLVal v) = some j := hj
    cases hv : atoiLVal v with
    | none =>
      rw [hv] at hj'
      simp at hj'
    | some n =>
      rw [hv] at hj'
      simp only [Option.map_some'] at hj'
      have hn : n + 1 = j := Option.some_injective _ hj'
      simp only [Bool.false_eq_true, if_false, hv]
      rw [← hn, putState_ok s _ _ hff]

theorem AddReviewData_ok (peer ctiID : String)
    (accuracy timeliness completeness consistency : Int) (reviewText : String)
    (s : Stub) (v : LVal) (j : Int) (hff : s.NoFaults)
    (hex : storeLookup s.store ("CTI_" ++ ctiID) = some v)
    (hj : nextSeqID s.store "Review" = some j) :
    AddReviewData peer ctiID accuracy timeliness completeness consistency reviewText s
      = (s.withStore (storePut
          (storePut s.store ("latestID_" ++ "Review") (.raw (goItoa j)))
          ("Review_" ++ ("Review" ++ "_" ++ goItoa j))
          (.rev ⟨"Review" ++ "_" ++ goItoa j, peer, ctiID, accuracy, timeliness,
            completeness, consistency, reviewText⟩)), none) := by
  unfold AddReviewData Stub.getState
  rw [hff.1]
  simp only [Bool.false_eq_true, if_false, hex]
  rw [generateUniqueID_ok s "Review" j hff hj]
  simp only []
  rw [putState_ok _ _ _ (noFaults_withStore s _ hff)]
  simp

/-- C2 as stated, over the embedding: some fixed projection of the value
AddCTIItem hands back to its caller recovers the allocated decimal ID.
The Go function's only return value is its error; it is modelled as the
Option String component of the result (the stub is the ledger world, not a
value returned to the caller). -/
def addCTIItemReturnsID : Prop :=
  ∃ f : Option String → String,
    ∀ (l : List (String × LVal)) (a : AddArgs) (i : Int),
      nextIntelID l = some i →
      f (addStep a (Stub.ok l)).2 = goItoa i

/-- C2 as stated for AddReviewData: some fixed projection of its returned
error value recovers the allocated review ID. -/
def addReviewDataReturnsID : Prop :=
  ∃ f : Option String → String,
    ∀ (l : List (String × LVal)) (peer ctiID reviewText : String)
      (accuracy timeliness completeness consistency : Int) (j : Int),
      storeLookup l ("CTI_" ++ ctiID) ≠ none →
      nextSeqID l "Review" = some j →
      f (AddReviewData peer ctiID accuracy timeliness completeness consistency
          reviewText (Stub.ok l)).2
        = "Review" ++ "_" ++ goItoa j

/-- C2 counterexample: no projection of what AddCTIItem returns to its
caller can recover the allocated ID, because two successful calls that
allocate the different IDs 1 and 2 (from the empty store and from the
store whose counter reads 1) both return the bare nil error. The claim,
which asserts both operations return the allocated ID in addition to the
error result, is therefore false on the code. -/
theorem C2_counterexample : ¬ (addCTIItemReturnsID ∧ addReviewDataReturnsID) := by
  rintro ⟨⟨f, hf⟩, -⟩
  have h1 := hf [] ⟨"p", "n", 0, "c", "k", 1, 2⟩ 1 rfl
  have h2 := hf [("latestID", .raw "1")] ⟨"p", "n", 0, "c", "k", 1, 2⟩ 2 (by decide)
  rw [show (addStep ⟨"p", "n", 0, "c", "k", 1, 2⟩ (Stub.ok [])).2 = none from rfl] at h1
  rw [show (addStep ⟨"p", "n", 0, "c", "k", 1, 2⟩
      (Stub.ok [("latestID", .raw "1")])).2 = none from rfl] at h2
  rw [h1] at h2
  exact absurd h2 (by decide)

/-- C2 amended: AddCTIItem and AddReviewData return only the Go error
value, nil on success; the newly allocated entity ID is recorded on the
ledger — in the written entity's ID field and storage key and in the
advanced sequence counter — rather than returned to the caller. -/
theorem C2_amended_id_recorded_not_returned
    (l : List (String × LVal)) (a : AddArgs) (i : Int)
    (hi : nextIntelID l = some i) :
    ((addStep a (Stub.ok l)).2 = none
      ∧ storeLookup (addStep a (Stub.ok l)).1.store "latestID"
          = some (.raw (goItoa i))
      ∧ storeLookup (addStep a (Stub.ok l)).1.store ("CTI_" ++ goItoa i)
          = some (.cti ⟨goItoa i, a.name, a.peer, a.timestamp, a.cid, a.encryptKey,
              a.points, a.level⟩))
    ∧ ∀ (peer ctiID reviewText : String)
        (accuracy timeliness completeness consistency : Int) (v : LVal) (j : Int),
        storeLookup l ("CTI_" ++ ctiID) = some v →
        nextSeqID l "Review" = some j →
        (AddReviewData peer ctiID accuracy timeliness completeness consistency
            reviewText (Stub.ok l)).2 = none
        ∧ storeLookup (AddReviewData peer ctiID accuracy timeliness completeness
              consistency reviewText (Stub.ok l)).1.store
            ("Review_" ++ ("Review" ++ "_" ++ goItoa j))
          = some (.rev ⟨"Review" ++ "_" ++ goItoa j, peer, ctiID, accuracy,
              timeliness, completeness, consistency, reviewText⟩) := by
  constructor
  · have ha := AddCTIItem_ok_of_next a.peer a.name a.timestamp a.cid a.encryptKey
      a.points a.level (Stub.ok l) i (Stub.ok_noFaults l) hi
    rw [show addStep a (Stub.ok l) = AddCTIItem a.peer a.name a.timestamp a.cid
      a.encryptKey a.points a.level (Stub.ok l) from rfl, ha]
    refine ⟨rfl, ?_, ?_⟩
    · rw [Stub.withStore_store]
      exact storeLookup_storePut_self _ "latestID" _
    · rw [Stub.withStore_store,
        storeLookup_storePut_ne _ "latestID" ("CTI_" ++ goItoa i) _
          (ne_of_strLt _ _ (strLt_CTI_latestID (goItoa i)))]
      exact storeLookup_storePut_self _ ("CTI_" ++ goItoa i) _
  · intro peer ctiID reviewText accuracy timeliness completeness consistency v j hv hj
    have hr := AddReviewData_ok peer ctiID accuracy timeliness completeness
      consistency reviewText (Stub.ok l) v j (Stub.ok_noFaults l) hv hj
    rw [hr]
    refine ⟨rfl, ?_⟩
    rw [Stub.withStore_store]
    exact storeLookup_storePut_self _ _ _

/-- C2 amended witness: the theorem at the store holding only item 7; the
intel allocation yields 1 and the review allocation yields 1. -/
theorem C2_amended_id_recorded_not_returned_witness :
    ((addStep ⟨"p", "n", 3, "c", "k", 1, 2⟩
        (Stub.ok [("CTI_7", .cti ⟨"7", "o", "q", 0, "c", "k", 1, 2⟩)])).2 = none
      ∧ storeLookup (addStep ⟨"p", "n", 3, "c", "k", 1, 2⟩
          (Stub.ok [("CTI_7", .cti ⟨"7", "o", "q", 0, "c", "k", 1, 2⟩)])).1.store
          "latestID" = some (.raw (goItoa 1))
      ∧ storeLookup (addStep ⟨"p", "n", 3, "c", "k", 1, 2⟩
          (Stub.ok [("CTI_7", .cti ⟨"7", "o", "q", 0, "c", "k", 1, 2⟩)])).1.store
          ("CTI_" ++ goItoa 1)
        = some (.cti ⟨goItoa 1, "n", "p", 3, "c", "k", 1, 2⟩))
    ∧ ((AddReviewData "p" "7" 1 2 3 4 "t"
          (Stub.ok [("CTI_7", .cti ⟨"7", "o", "q", 0, "c", "k", 1, 2⟩)])).2 = none
      ∧ storeLookup (AddReviewData "p" "7" 1 2 3 4 "t"
          (Stub.ok [("CTI_7", .cti ⟨"7", "o", "q", 0, "c", "k", 1, 2⟩)])).1.store
          ("Review_" ++ ("Review" ++ "_" ++ goItoa 1))
        = some (.rev ⟨"Review" ++ "_" ++ goItoa 1, "p", "7", 1, 2, 3, 4, "t"⟩)) :=
  ⟨(C2_amended_id_recorded_not_returned
      [("CTI_7", .cti ⟨"7", "o", "q", 0, "c", "k", 1, 2⟩)]
      ⟨"p", "n", 3, "c", "k", 1, 2⟩ 1 rfl).1,
   (C2_amended_id_recorded_not_returned
      [("CTI_7", .cti ⟨"7", "o", "q", 0, "c", "k", 1, 2⟩)]
      ⟨"p", "n", 3, "c", "k", 1, 2⟩ 1 rfl).2 "p" "7" "t" 1 2 3 4
      (.cti ⟨"7", "o", "q", 0, "c", "k", 1, 2⟩) 1 (by decide) rfl⟩

theorem Filtered_of_present (s' : Stub) (peer : String) (items : List CTIData)
    (u : UserData) (hff : s'.NoFaults)
    (hall : GetAllCTIItems s' = .ok items)
    (hu : storeLookup s'.store ("UserData_" ++ peer) = some (.usr u)) :
    GetCTIItemsFilteredBySubscriptionLevel peer s'
      = (s', .ok (items.filter (fun c => decide (c.Level ≤ u.Subscribed)))) := by
  unfold GetCTIItemsFilteredBySubscriptionLevel
  rw [hall, GetUserData_present peer s' u hff hu]

/-- C8: the subscription-visibility query does not return the Level-filter
of all stored intel items, because it is built on the bounded all-items
scan: from a ledger whose intel counter reads 9999998 and which already
holds the level-0 item 1, AddCTIItem succeeds and stores a second level-0
item at key CTI_9999999, which GetCTIItem returns; a first-time caller's
query then auto-creates the caller's zero-valued account (subscription
level 0) yet returns only item 1 — the stored item 9999999, whose Level 0
is within the caller's subscription level, is silently omitted, the same
fixed range-end slip recorded against GetAllCTIItems. -/
theorem C8_filter_misses_stored_item :
    (let r := AddCTIItem "q" "b" 0 "c" "k" 1 0
        (Stub.ok [("latestID", .raw "9999998"),
          ("CTI_1", .cti ⟨"1", "a", "q", 0, "c", "k", 1, 0⟩)])
     r.2 = none
     ∧ storeLookup r.1.store "CTI_9999999"
        = some (.cti ⟨"9999999", "b", "q", 0, "c", "k", 1, 0⟩)
     ∧ GetCTIItem 9999999 r.1 = .ok ⟨"9999999", "b", "q", 0, "c", "k", 1, 0⟩
     ∧ (GetCTIItemsFilteredBySubscriptionLevel "p" r.1).2
        = .ok [⟨"1", "a", "q", 0, "c", "k", 1, 0⟩]
     ∧ storeLookup (GetCTIItemsFilteredBySubscriptionLevel "p" r.1).1.store
        ("UserData_" ++ "p") = some (.usr ⟨"p", 0, 0, 0, 0, 0⟩)) := by
  exact ⟨rfl, rfl, rfl, rfl, rfl⟩

theorem addStep_counter (a : AddArgs) (s : Stub) (n : Nat) (hff : s.NoFaults)
    (hc : storeLookup s.store "latestID" = some (.raw (natRepr n))) :
    (addStep a s).2 = none
    ∧ storeLookup (addStep a s).1.store "latestID" = some (.raw (natRepr (n + 1)))
    ∧ (addStep a s).1.NoFaults := by
  have hnext := nextIntelID_counter s.store n hc
  have hstep : addStep a s
      = (s.withStore (storePut (storePut s.store ("CTI_" ++ goItoa ((n : Int) + 1))
          (.cti ⟨goItoa ((n : Int) + 1), a.name, a.peer, a.timestamp, a.cid,
            a.encryptKey, a.points, a.level⟩))
          "latestID" (.raw (goItoa ((n : Int) + 1)))), none) :=
    AddCTIItem_ok_of_next a.peer a.name a.timestamp a.cid a.encryptKey
      a.points a.level s ((n : Int) + 1) hff hnext
  refine ⟨by rw [hstep], ?_, by rw [hstep]; exact noFaults_withStore s _ hff⟩
  rw [hstep, Stub.withStore_store, goItoa_cast_succ n]
  exact storeLookup_storePut_self _ "latestID" _

theorem addStep_absent (a : AddArgs) (s : Stub) (hff : s.NoFaults)
    (hc : storeLookup s.store "latestID" = none) :
    (addStep a s).2 = none
    ∧ storeLookup (addStep a s).1.store "latestID" = some (.raw (natRepr 1))
    ∧ (addStep a s).1.NoFaults := by
  have hnext := nextIntelID_absent s.store hc
  have hstep : addStep a s
      = (s.withStore (storePut (storePut s.store ("CTI_" ++ goItoa 1)
          (.cti ⟨goItoa 1, a.name, a.peer, a.timestamp, a.cid,
            a.encryptKey, a.points, a.level⟩))
          "latestID" (.raw (goItoa 1))), none) :=
    AddCTIItem_ok_of_next a.peer a.name a.timestamp a.cid a.encryptKey
      a.points a.level s 1 hff hnext
  have h1 : goItoa 1 = natRepr 1 := by decide
  refine ⟨by rw [hstep], ?_, by rw [hstep]; exact noFaults_withStore s _ hff⟩
  rw [hstep, Stub.withStore_store, h1]
  exact storeLookup_storePut_self _ "latestID" _

theorem intelTrace_from (t : List AddArgs) (s : Stub) (n : Nat) (hff : s.NoFaults)
    (hc : storeLookup s.store "latestID" = some (.raw (natRepr n))) :
    intelTrace t s = (List.range t.length).map
      (fun k => (none, some (LVal.raw (natRepr (n + k + 1))))) := by
  induction t generalizing s n with
  | nil => rfl
  | cons a t ih =>
    obtain ⟨he, hcnt, hffn⟩ := addStep_counter a s n hff hc
    have htail := ih (addStep a s).1 (n + 1) hffn hcnt
    show ((addStep a s).2, storeLookup (addStep a s).1.store "latestID")
        :: intelTrace t (addStep a s).1 = _
    rw [he, hcnt, htail, List.length_cons, List.range_succ_eq_map, List.map_cons,
      List.map_map]
    congr 1
    apply List.map_congr_left
    intro k hk
    simp only [Function.comp]
    have h1 : n + 1 + k + 1 = n + (k + 1) + 1 := by omega
    rw [h1]

/-- C4: for every sequence of AddCTIItem calls from the empty fault-free
ledger, every call succeeds, the counter stored after the k-th call is
exactly k (so the first allocated value is 1, each later call's value is
strictly greater than all earlier ones, and the stored counter never
decreases), and the decimal IDs assigned to the created items are pairwise
distinct. -/
theorem C4_sequence_allocation (as : List AddArgs) :
    intelTrace as (Stub.ok [])
      = (List.range as.length).map
          (fun k => (none, some (LVal.raw (natRepr (k + 1)))))
    ∧ ((List.range as.length).map (fun k => natRepr (k + 1))).Pairwise (· ≠ ·) := by
  constructor
  · cases as with
    | nil => rfl
    | cons a t =>
      obtain ⟨he, hcnt, hffn⟩ := addStep_absent a (Stub.ok []) (Stub.ok_noFaults []) rfl
      have htail := intelTrace_from t (addStep a (Stub.ok [])).1 1 hffn hcnt
      show ((addStep a (Stub.ok [])).2,
          storeLookup (addStep a (Stub.ok [])).1.store "latestID")
          :: intelTrace t (addStep a (Stub.ok [])).1 = _
      rw [he, hcnt, htail, List.length_cons, List.range_succ_eq_map, List.map_cons,
        List.map_map]
      congr 1
      apply List.map_congr_left
      intro k hk
      simp only [Function.comp]
      have h1 : 1 + k + 1 = k + 1 + 1 := by omega
      rw [h1]
  · have hp : (List.range as.length).Pairwise (· < ·) := List.pairwise_lt_range _
    refine List.Pairwise.map _ ?_ hp
    intro a b hab heq
    have h2 := natRepr_injective (a + 1) (b + 1) heq
    omega
